import Mathlib

/-!
# Verification of the libbtcnet connection handler

A shallow embedding of the connection handler (`CConnectionHandlerInt`,
`src/unnamed/part_003`) and of the DNS connection variant
(`src/src/dnsconn.cpp`).  The handler's four maps are modelled as
association lists with `std::map` semantics (unique keys,
insert-if-absent for `emplace_hint`), machine integers as `Int` / `Nat`
with explicit `% 2^w` where a C++ conversion wraps, and each reactor
event or external command as an explicit state transformer.  Code that
is present only as a header (the per-connection object internals of
`ConnectionBase`, `src/unnamed/part_001`) is kept abstract as flags on
the per-connection record; nothing a claim depends on lives there.
-/

set_option linter.unusedVariables false

/-- `CConnectionOptions::doResolve` (libbtcnet/connection.h). -/
inductive DoResolveOpt
  | RESOLVE
  | NO_RESOLVE
  | RESOLVE_ONLY
deriving DecidableEq

/-- The fields of a `CConnection` destination descriptor that the handler
logic in `part_003` inspects: `IsDNS()`, `GetProxy().IsSet()`,
`GetOptions().doResolve`, `GetOptions().nRetries`, `IsSet()`. -/
structure CConnection where
  isDNS : Bool
  proxySet : Bool
  doResolve : DoResolveOpt
  nRetries : Int
  isSet : Bool
deriving DecidableEq

/-- Rate limit descriptor `CRateLimit`. -/
structure CRateLimit where
  nMaxReadRate : Int
  nMaxBurstRead : Int
  nMaxWriteRate : Int
  nMaxBurstWrite : Int
deriving DecidableEq

/-- The connection variants: which concrete `ConnectionBase` subclass the
handler constructed in `StartConnection` / `OnIncomingConnection`. -/
inductive Variant
  | Direct
  | DNS
  | Proxy
  | ResolveOnly
  | Incoming
deriving DecidableEq

/-- `IsOutgoing()`: `CDNSConnection`, `CDirectConnection` and `CProxyConn`
return true; `CIncomingConn` returns false. -/
def Variant.isOutgoing : Variant → Bool
  | .Incoming => false
  | _ => true

/-- Per-connection object state.  The fields after `variant` summarise the
`ConnectionBase` object (whose implementation is not part of the handler
translation unit): a close was requested, reads are paused, bytes queued
for write, and an optional per-connection rate-limit override. -/
structure ConnInfo where
  conn : CConnection
  variant : Variant
  closing : Bool
  paused : Bool
  writeBuf : Nat
  rateOverride : Option CRateLimit
deriving DecidableEq

/-- Fresh connection object as constructed by the handler. -/
def mkConnInfo (c : CConnection) (v : Variant) : ConnInfo :=
  ⟨c, v, false, false, 0, none⟩

/-- Callbacks into the embedder (`CConnectionHandler` interface) and the
`Connect()`/`Resolve()` invocations on connection objects, in the order
the handler performs them. -/
inductive Ev
  | needOutgoing (n : Nat)
  | outgoingConnection (id : Nat)
  | readyForFirstSend (id : Nat)
  | incomingQuery (id : Nat)
  | disconnected (id : Nat) (reconnect : Bool)
  | connectionFailure (retry : Bool)
  | dnsFailure (retry : Bool)
  | proxyFailure (retry : Bool)
  | dnsResponse (id : Nat)
  | bindFailure
  | connectInvoked (id : Nat)
  | resolveInvoked (id : Nat)
deriving DecidableEq

/-- `ConnectionFailureType` bits as used by `OnConnectionFailure`. -/
inductive FailureType
  | CONNECT
  | PROXY
  | RESOLVE
deriving DecidableEq

/-! ## Association-list maps with `std::map` semantics -/

/-- `map.find(id)` returning the mapped value. -/
def lookupId {α : Type} : List (Nat × α) → Nat → Option α
  | [], _ => none
  | (k, v) :: rest, id => if k = id then some v else lookupId rest id

/-- `map.erase(id)`. -/
def eraseId {α : Type} : List (Nat × α) → Nat → List (Nat × α)
  | [], _ => []
  | (k, v) :: rest, id => if k = id then eraseId rest id else (k, v) :: eraseId rest id

/-- Mutation of the mapped value of an existing key. -/
def updateId {α : Type} : List (Nat × α) → Nat → α → List (Nat × α)
  | [], _, _ => []
  | (k, v) :: rest, id, v' => if k = id then (k, v') :: rest else (k, v) :: updateId rest id v'

/-- `map.emplace_hint(map.end(), id, v)`: inserts only when the key is
absent, which is exactly `std::map` behaviour. -/
def emplaceHint {α : Type} (m : List (Nat × α)) (id : Nat) (v : α) : List (Nat × α) :=
  if (lookupId m id).isSome then m else m ++ [(id, v)]

/-- Number of entries whose connection object satisfies `f`. -/
def countIf (f : ConnInfo → Bool) : List (Nat × ConnInfo) → Nat
  | [] => 0
  | (_, v) :: rest => (if f v then 1 else 0) + countIf f rest

/-- `|{c ∈ m : c.IsOutgoing()}|`. -/
def countOutgoing (m : List (Nat × ConnInfo)) : Nat :=
  countIf (fun v => v.variant.isOutgoing) m

/-- `|{c ∈ m : ¬c.IsOutgoing()}|`. -/
def countIncoming (m : List (Nat × ConnInfo)) : Nat :=
  countIf (fun v => !v.variant.isOutgoing) m

/-! ## Handler state (`CConnectionHandlerInt` data members) -/

/-- The handler's mutable state: the maps `m_connected`, `m_connecting`,
`m_dns_resolves`, `m_binds`, the id counter `m_connection_index`, the two
live counts, the outgoing limit, and `m_shutdown`. -/
structure HandlerState where
  connected : List (Nat × ConnInfo)
  connecting : List (Nat × ConnInfo)
  dnsResolves : List (Nat × ConnInfo)
  binds : List (Nat × CConnection)
  connectionIndex : Nat
  outgoingConnCount : Int
  incomingConnCount : Int
  outgoingConnLimit : Int
  shutdown : Bool
deriving DecidableEq

/-- `ConnID` is `typedef unsigned int ConnID` (src/unnamed/part_000,
line 34): a 32-bit unsigned integer, so ids wrap modulo `2^32`. -/
def connIdModulus : Nat := 2 ^ 32

/-- The id produced by the `idx`-th evaluation of `m_connection_index++`:
the counter value reduced to the width of `ConnID`. -/
def allocConnId (idx : Nat) : Nat := idx % connIdModulus

/-- Handler state right after `Start(outgoing_limit)` (which asserts both
counts are zero, sets the limit, clears `m_shutdown` and fires
`OnStartup`). -/
def initState (outgoingLimit : Int) : HandlerState :=
  ⟨[], [], [], [], 0, 0, 0, outgoingLimit, false⟩

/-! ## Handler operations (`src/unnamed/part_003`) -/

/-- Variant selection in the `else` branch of `StartConnection`
(part_003 lines 371-377): `CProxyConn` if the proxy is set, else
`CDNSConnection` if `IsDNS()`, else `CDirectConnection`. -/
def variantFor (c : CConnection) : Variant :=
  if c.proxySet then .Proxy else if c.isDNS then .DNS else .Direct

/-- `CConnectionHandlerInt::StartConnection` (part_003 lines 358-381).
Allocates an id, then: if `IsDNS() && doResolve == RESOLVE_ONLY`, either
does nothing when a proxy is set (the `/* TODO */` branch) or creates a
`CResolveOnly` in `m_dns_resolves` and calls `Resolve()`; otherwise
creates the proxy/DNS/direct variant in `m_connecting` and calls
`Connect()`. -/
def StartConnection (c : CConnection) (s : HandlerState) : HandlerState × List Ev :=
  let id := allocConnId s.connectionIndex
  let s1 := { s with connectionIndex := s.connectionIndex + 1 }
  if c.isDNS ∧ c.doResolve = DoResolveOpt.RESOLVE_ONLY then
    if c.proxySet then
      (s1, [])
    else
      ({ s1 with dnsResolves := emplaceHint s1.dnsResolves id (mkConnInfo c .ResolveOnly) },
       [.resolveInvoked id])
  else
    ({ s1 with connecting := emplaceHint s1.connecting id (mkConnInfo c (variantFor c)) },
     [.connectInvoked id])

/-- The loop body of `RequestOutgoingInt` (part_003 lines 394-400): for
each destination in the prefix returned by the embedder, call
`StartConnection` when `IsSet()`. -/
def startMany : List CConnection → HandlerState → HandlerState × List Ev
  | [], s => (s, [])
  | c :: cs, s =>
    if c.isSet then
      let r1 := StartConnection c s
      let r2 := startMany cs r1.1
      (r2.1, r1.2 ++ r2.2)
    else
      startMany cs s

/-- The `int` quantity `m_outgoing_conn_limit - m_outgoing_conn_count -
(int)m_connecting.size()` inside `RequestOutgoingInt` (part_003
line 392). -/
def codeNeedQty (s : HandlerState) : Int :=
  s.outgoingConnLimit - s.outgoingConnCount - (s.connecting.length : Int)

/-- `size_t need = (size_t)std::min(8, limit - count -
(int)connecting.size())` (part_003 line 392): the signed-to-`size_t`
conversion of the `int` minimum is its value modulo `2^64`. -/
def needValue (s : HandlerState) : Nat :=
  ((min 8 (codeNeedQty s)) % (2 ^ 64 : Int)).toNat

/-- The prefix of the embedder's response that the loop walks:
`std::advance(end, std::min(conns.size(), need))` (part_003 line 396). -/
def takenConns (response : Nat → List CConnection) (s : HandlerState) :
    List CConnection :=
  (response (needValue s)).take (min (response (needValue s)).length (needValue s))

/-- `CConnectionHandlerInt::RequestOutgoingInt` (part_003 lines 389-402):
when `need > 0` the embedder is asked (`OnNeedOutgoingConnections(need)`,
modelled by the `response` function) and the destinations in the taken
prefix are started. -/
def RequestOutgoingInt (response : Nat → List CConnection) (s : HandlerState) :
    HandlerState × List Ev :=
  if 0 < needValue s then
    ((startMany (takenConns response s) s).1,
     .needOutgoing (needValue s) :: (startMany (takenConns response s) s).2)
  else
    (s, [])

/-- `CConnectionHandlerInt::OnOutgoingConnected` (part_003 lines
312-330), stopped just before the two embedder callbacks: the entry has
been moved from `m_connecting` into `m_connected` (lines 316-325) but
`m_outgoing_conn_count++` (line 329) has not yet run.  This is the
handler state in which `OnOutgoingConnection` and `OnReadyForFirstSend`
are delivered. -/
def OnOutgoingConnectedPre (id : Nat) (s : HandlerState) : HandlerState :=
  match lookupId s.connecting id with
  | none => s
  | some info =>
    { s with connecting := eraseId s.connecting id
             connected := emplaceHint s.connected id info }

/-- `CConnectionHandlerInt::OnOutgoingConnected` (part_003 lines
312-330), complete: move from `m_connecting` to `m_connected`, emit
`OnOutgoingConnection` then `OnReadyForFirstSend`, then increment
`m_outgoing_conn_count`.  The event is only ever generated by an
outgoing connection object, hence the `isOutgoing` guard. -/
def OnOutgoingConnected (id : Nat) (s : HandlerState) : HandlerState × List Ev :=
  match lookupId s.connecting id with
  | none => (s, [])
  | some info =>
    if info.variant.isOutgoing then
      ({ s with connecting := eraseId s.connecting id
                connected := emplaceHint s.connected id info
                outgoingConnCount := s.outgoingConnCount + 1 },
       [.outgoingConnection id, .readyForFirstSend id])
    else
      (s, [])

/-- `CConnectionHandlerInt::OnIncomingConnection` (part_003 lines
249-259): a listener accepted a socket; allocate an id, place a
`CIncomingConn` in `m_connecting` and call `Connect()`. -/
def OnIncomingConnection (bindConn : CConnection) (s : HandlerState) :
    HandlerState × List Ev :=
  let id := allocConnId s.connectionIndex
  ({ s with connectionIndex := s.connectionIndex + 1
            connecting := emplaceHint s.connecting id (mkConnInfo bindConn .Incoming) },
   [.connectInvoked id])

/-- `CConnectionHandlerInt::OnIncomingConnected` (part_003 lines
292-310): remove from `m_connecting`; consult the embedder
(`OnIncomingConnection` callback); if accepted, place in `m_connected`
and increment `m_incoming_conn_count`, otherwise the moved object is
destroyed.  The event is only generated by a `CIncomingConn`. -/
def OnIncomingConnected (id : Nat) (accept : Bool) (s : HandlerState) :
    HandlerState × List Ev :=
  match lookupId s.connecting id with
  | none => (s, [])
  | some info =>
    if info.variant = .Incoming then
      if accept then
        ({ s with connecting := eraseId s.connecting id
                  connected := emplaceHint s.connected id info
                  incomingConnCount := s.incomingConnCount + 1 },
         [.incomingQuery id])
      else
        ({ s with connecting := eraseId s.connecting id }, [.incomingQuery id])
    else
      (s, [])

/-- `CConnectionHandlerInt::OnDisconnected` (part_003 lines 221-247):
`reconnect &&= !m_shutdown`; remove from `m_connected`; decrement the
matching count; emit `OnDisconnected(id, reconnect)`; on reconnect,
allocate a new id and move the object back into `m_connecting`. -/
def OnDisconnected (id : Nat) (reconnect : Bool) (s : HandlerState) :
    HandlerState × List Ev :=
  match lookupId s.connected id with
  | none => (s, [])
  | some info =>
    let recFlag := reconnect && !s.shutdown
    let oc := if info.variant.isOutgoing then s.outgoingConnCount - 1 else s.outgoingConnCount
    let ic := if info.variant.isOutgoing then s.incomingConnCount else s.incomingConnCount - 1
    if recFlag then
      ({ s with connected := eraseId s.connected id
                connecting := emplaceHint s.connecting (allocConnId s.connectionIndex) info
                connectionIndex := s.connectionIndex + 1
                outgoingConnCount := oc
                incomingConnCount := ic },
       [.disconnected id recFlag])
    else
      ({ s with connected := eraseId s.connected id
                outgoingConnCount := oc
                incomingConnCount := ic },
       [.disconnected id recFlag])

/-- `CConnectionHandlerInt::OnConnectionFailure` (part_003 lines
269-290): remove from `m_connecting`; `retry &&= !m_shutdown`; dispatch
`OnProxyFailure` / `OnDnsFailure` / `OnConnectionFailure` by failure
type; on retry, allocate a new id and re-insert into `m_connecting`. -/
def OnConnectionFailure (id : Nat) (t : FailureType) (retry : Bool) (s : HandlerState) :
    HandlerState × List Ev :=
  match lookupId s.connecting id with
  | none => (s, [])
  | some info =>
    let retryFlag := retry && !s.shutdown
    let ev :=
      match t with
      | .PROXY => Ev.proxyFailure retryFlag
      | .RESOLVE => Ev.dnsFailure retryFlag
      | .CONNECT => Ev.connectionFailure retryFlag
    if retryFlag then
      ({ s with connecting := emplaceHint (eraseId s.connecting id) (allocConnId s.connectionIndex) info
                connectionIndex := s.connectionIndex + 1 },
       [ev])
    else
      ({ s with connecting := eraseId s.connecting id }, [ev])

/-- `CConnectionHandlerInt::OnResolveComplete` (part_003 lines 193-198):
emit `OnDnsResponse` and erase from `m_dns_resolves`. -/
def OnResolveComplete (id : Nat) (s : HandlerState) : HandlerState × List Ev :=
  ({ s with dnsResolves := eraseId s.dnsResolves id }, [.dnsResponse id])

/-- `CConnectionHandlerInt::OnResolveFailure` (part_003 lines 200-213):
`retry &&= !m_shutdown`; emit `OnDnsFailure(conn, retry)`; on retry the
entry stays in `m_dns_resolves` and re-arms, otherwise it is erased. -/
def OnResolveFailure (id : Nat) (retry : Bool) (s : HandlerState) :
    HandlerState × List Ev :=
  match lookupId s.dnsResolves id with
  | none => (s, [])
  | some _ =>
    let retryFlag := retry && !s.shutdown
    if retryFlag then
      (s, [.dnsFailure retryFlag])
    else
      ({ s with dnsResolves := eraseId s.dnsResolves id }, [.dnsFailure retryFlag])

/-- `CConnectionHandlerInt::Bind` (part_003 lines 344-356; named `HandlerBind`
here because `Bind` is taken in Lean's root namespace): allocate an
id, attempt the listener bind (outcome supplied by the environment as
`ok`); on success record it in `m_binds`. -/
def HandlerBind (c : CConnection) (ok : Bool) (s : HandlerState) : HandlerState × List Ev :=
  let id := allocConnId s.connectionIndex
  let s1 := { s with connectionIndex := s.connectionIndex + 1 }
  if ok then
    ({ s1 with binds := emplaceHint s1.binds id c }, [])
  else
    (s1, [])

/-- `CConnectionHandlerInt::OnListenFailure` (part_003 lines 261-267):
emit `OnBindFailure` and erase the listener from `m_binds`. -/
def OnListenFailure (id : Nat) (s : HandlerState) : HandlerState × List Ev :=
  ({ s with binds := eraseId s.binds id }, [.bindFailure])

/-- `CConnectionHandlerInt::ShutdownInt` (part_003 lines 99-156): no-op
when `m_shutdown` is already set; otherwise swap out `m_connected` and
`m_binds`, set `m_shutdown`, emit `OnDisconnected(id, false)` per
connected entry (decrementing the matching count), emit
`OnConnectionFailure(..., false)` per outgoing connecting entry, clear
`m_connecting`, `m_dns_resolves` and the listeners. -/
def ShutdownInt (s : HandlerState) : HandlerState × List Ev :=
  if s.shutdown then
    (s, [])
  else
    let discEvs := s.connected.map fun p => Ev.disconnected p.1 false
    let failEvs :=
      (s.connecting.filter fun p => p.2.variant.isOutgoing).map
        fun _ => Ev.connectionFailure false
    ({ s with connected := []
              connecting := []
              dnsResolves := []
              binds := []
              outgoingConnCount := s.outgoingConnCount - (countOutgoing s.connected : Int)
              incomingConnCount := s.incomingConnCount - (countIncoming s.connected : Int)
              shutdown := true },
     discEvs ++ failEvs)

/-- `CConnectionHandlerInt::Send` (part_003 lines 449-459): look up the
id in `m_connected`; unknown ids return false and touch nothing; known
ids forward to `ConnectionBase::Write` (modelled as queueing the bytes
and succeeding). -/
def Send (id : Nat) (size : Nat) (s : HandlerState) : HandlerState × Bool :=
  match lookupId s.connected id with
  | none => (s, false)
  | some info =>
    ({ s with connected := updateId s.connected id { info with writeBuf := info.writeBuf + size } },
     true)

/-- `CConnectionHandlerInt::CloseConnection` (part_003 lines 421-431):
unknown ids are ignored; known ids get `Disconnect()` or
`DisconnectWhenFinished()` on the connection object (modelled as the
`closing` flag). -/
def CloseConnection (id : Nat) (immediately : Bool) (s : HandlerState) : HandlerState :=
  match lookupId s.connected id with
  | none => s
  | some info =>
    { s with connected := updateId s.connected id { info with closing := true } }

/-- `CConnectionHandlerInt::PauseRecv` (part_003 lines 433-439). -/
def PauseRecv (id : Nat) (s : HandlerState) : HandlerState :=
  match lookupId s.connected id with
  | none => s
  | some info =>
    { s with connected := updateId s.connected id { info with paused := true } }

/-- `CConnectionHandlerInt::UnpauseRecv` (part_003 lines 441-447). -/
def UnpauseRecv (id : Nat) (s : HandlerState) : HandlerState :=
  match lookupId s.connected id with
  | none => s
  | some info =>
    { s with connected := updateId s.connected id { info with paused := false } }

/-- `CConnectionHandlerInt::SetRateLimit` (part_003 lines 461-467). -/
def SetRateLimit (id : Nat) (limit : CRateLimit) (s : HandlerState) : HandlerState :=
  match lookupId s.connected id with
  | none => s
  | some info =>
    { s with connected := updateId s.connected id { info with rateOverride := some limit } }

/-! ## The DNS connection variant (`src/src/dnsconn.cpp`) -/

/-- The `CDNSConnection` fields driving its retry logic: `m_retries`
(initialised from `GetOptions().nRetries`), the resolved address list
`m_resolved` (addresses abstracted to opaque numbers) and the cursor
`m_iter`, represented as an index with `iter = resolved.length` standing
for `m_resolved.end()`. -/
structure DnsConnState where
  retries : Int
  resolved : List Nat
  iter : Nat
deriving DecidableEq

/-- `CDNSConnection::OnResolveFailure` (dnsconn.cpp lines 67-75): the
retry flag passed to the handler is
`m_retries > 0 ? m_retries-- : m_retries != 0`, so when `m_retries > 0`
the old (nonzero, hence true) value is passed and the counter is
decremented; otherwise `m_retries != 0` is passed unchanged.  Returns
the flag and the updated state. -/
def dnsOnResolveFailure (s : DnsConnState) : Bool × DnsConnState :=
  if 0 < s.retries then
    (true, { s with retries := s.retries - 1 })
  else
    (decide (s.retries ≠ 0), s)

/-- `CDNSConnection::ConnectionFailure` (dnsconn.cpp lines 132-140): the
flag passed to the handler is `++m_iter != m_resolved.end() || m_retries != 0`,
i.e. the cursor is advanced first and the flag is true when it has not
reached the end or the retry counter is nonzero; `m_retries` itself is
untouched. -/
def dnsConnectionFailure (s : DnsConnState) : Bool × DnsConnState :=
  let it := s.iter + 1
  ((decide (it < s.resolved.length) || decide (s.retries ≠ 0)), { s with iter := it })

/-- What `CDNSConnection::Connect` (dnsconn.cpp lines 31-40) does next. -/
inductive DnsConnectAction
  | resolveStep
  | connectStep
deriving DecidableEq

/-- `CDNSConnection::Connect`: re-resolve when the cursor is at the end
of the resolved list, otherwise connect to the cursor address. -/
def dnsConnect (s : DnsConnState) : DnsConnectAction :=
  if s.iter = s.resolved.length then .resolveStep else .connectStep

/-- `retry = retry && !m_shutdown` applied by
`CConnectionHandlerInt::OnConnectionFailure` (part_003 line 276) before
the flag reaches the embedder. -/
def deliveredRetry (retry : Bool) (shutdownFlag : Bool) : Bool :=
  retry && !shutdownFlag

/-! ## Spec-side definitions (for comparison with the code) -/

/-- The spec's refill formula, following its words: `need = min(8,
outgoing_conn_limit − outgoing_conn_count − |outgoing ∈ connecting|)`. -/
def specNeed (s : HandlerState) : Int :=
  min 8 (s.outgoingConnLimit - s.outgoingConnCount - (countOutgoing s.connecting : Int))

/-- The spec's DNS-resolution-failure retry predicate, following its
words: `will_retry = (retries_remaining > 0 ∨ retries_remaining == -1) ∧
¬shutdown`. -/
def specWillRetry (retries : Int) (shutdownFlag : Bool) : Prop :=
  (0 < retries ∨ retries = -1) ∧ shutdownFlag = false

instance (r : Int) (b : Bool) : Decidable (specWillRetry r b) := by
  unfold specWillRetry; infer_instance

/-! ## The operation machine: sequences of reactor events and commands -/

/-- One reactor event or external command, with the environment's and
embedder's choices (bind outcome, accept decision, retry flag computed by
the connection object, destinations returned by `OnNeedOutgoingConnections`)
as parameters. -/
inductive Op
  | startConn (c : CConnection)
  | requestOutgoing (response : Nat → List CConnection)
  | bindListener (c : CConnection) (ok : Bool)
  | listenFailed (id : Nat)
  | incomingAccepted (bindConn : CConnection)
  | incomingConnected (id : Nat) (accept : Bool)
  | outgoingConnected (id : Nat)
  | connDisconnected (id : Nat) (reconnect : Bool)
  | connFailed (id : Nat) (t : FailureType) (retry : Bool)
  | resolveComplete (id : Nat)
  | resolveFailed (id : Nat) (retry : Bool)
  | shutdownEvent
  | closeCmd (id : Nat) (immediately : Bool)
  | sendCmd (id : Nat) (n : Nat)
  | pauseCmd (id : Nat)
  | unpauseCmd (id : Nat)
  | rateCmd (id : Nat) (limit : CRateLimit)

/-- Dispatch one operation to the handler function it names. -/
def step : Op → HandlerState → HandlerState × List Ev
  | .startConn c, s => StartConnection c s
  | .requestOutgoing r, s => RequestOutgoingInt r s
  | .bindListener c ok, s => HandlerBind c ok s
  | .listenFailed id, s => OnListenFailure id s
  | .incomingAccepted c, s => OnIncomingConnection c s
  | .incomingConnected id a, s => OnIncomingConnected id a s
  | .outgoingConnected id, s => OnOutgoingConnected id s
  | .connDisconnected id r, s => OnDisconnected id r s
  | .connFailed id t r, s => OnConnectionFailure id t r s
  | .resolveComplete id, s => OnResolveComplete id s
  | .resolveFailed id r, s => OnResolveFailure id r s
  | .shutdownEvent, s => ShutdownInt s
  | .closeCmd id imm, s => (CloseConnection id imm s, [])
  | .sendCmd id n, s => ((Send id n s).1, [])
  | .pauseCmd id, s => (PauseRecv id s, [])
  | .unpauseCmd id, s => (UnpauseRecv id s, [])
  | .rateCmd id l, s => (SetRateLimit id l s, [])

/-- Run a sequence of operations, accumulating the emitted callbacks. -/
def run : List Op → HandlerState → HandlerState × List Ev
  | [], s => (s, [])
  | op :: ops, s =>
    let r1 := step op s
    let r2 := run ops r1.1
    (r2.1, r1.2 ++ r2.2)

/-! ## Map lemmas -/

/-- The key list of a map. -/
def keysOf {α : Type} (m : List (Nat × α)) : List Nat := m.map Prod.fst

theorem keysOf_cons {α : Type} (k : Nat) (v : α) (rest : List (Nat × α)) :
    keysOf ((k, v) :: rest) = k :: keysOf rest := rfl

theorem keysOf_append {α : Type} (a b : List (Nat × α)) :
    keysOf (a ++ b) = keysOf a ++ keysOf b := by
  simp [keysOf]

theorem lookupId_eq_none {α : Type} (m : List (Nat × α)) (id : Nat) :
    lookupId m id = none ↔ id ∉ keysOf m := by
  induction m with
  | nil => simp [lookupId, keysOf]
  | cons p rest ih =>
    obtain ⟨k, v⟩ := p
    rw [keysOf_cons]
    by_cases h : k = id
    · subst h
      simp [lookupId]
    · simp only [lookupId, if_neg h, List.mem_cons, ih]
      constructor
      · intro hn hmem
        rcases hmem with he | hm
        · exact h he.symm
        · exact hn hm
      · intro hn hm
        exact hn (Or.inr hm)

theorem mem_keysOf_of_lookup {α : Type} {m : List (Nat × α)} {id : Nat} {v : α}
    (h : lookupId m id = some v) : id ∈ keysOf m := by
  by_contra hmem
  rw [(lookupId_eq_none m id).mpr hmem] at h
  exact Option.noConfusion h

theorem eraseId_sublist {α : Type} (m : List (Nat × α)) (id : Nat) :
    List.Sublist (eraseId m id) m := by
  induction m with
  | nil => simp [eraseId]
  | cons p rest ih =>
    obtain ⟨k, v⟩ := p
    simp only [eraseId]
    by_cases h : k = id
    · simpa [h] using ih.cons (k, v)
    · simpa [h] using ih.cons₂ (k, v)

theorem keysOf_eraseId_sublist {α : Type} (m : List (Nat × α)) (id : Nat) :
    List.Sublist (keysOf (eraseId m id)) (keysOf m) :=
  (eraseId_sublist m id).map Prod.fst

theorem not_mem_keysOf_eraseId {α : Type} (m : List (Nat × α)) (id : Nat) :
    id ∉ keysOf (eraseId m id) := by
  induction m with
  | nil => simp [eraseId, keysOf]
  | cons p rest ih =>
    obtain ⟨k, v⟩ := p
    simp only [eraseId]
    by_cases h : k = id
    · simpa [h] using ih
    · rw [if_neg h, keysOf_cons]
      intro hmem
      rcases List.mem_cons.mp hmem with he | hm
      · exact h he.symm
      · exact ih hm

theorem eraseId_eq_of_not_mem {α : Type} {m : List (Nat × α)} {id : Nat}
    (h : id ∉ keysOf m) : eraseId m id = m := by
  induction m with
  | nil => simp [eraseId]
  | cons p rest ih =>
    obtain ⟨k, v⟩ := p
    rw [keysOf_cons] at h
    have hk : ¬k = id := fun he => h (by rw [← he]; exact List.mem_cons_self _ _)
    have hrest : id ∉ keysOf rest := fun hm => h (List.mem_cons_of_mem _ hm)
    simp only [eraseId, if_neg hk, ih hrest]

theorem emplaceHint_of_none {α : Type} {m : List (Nat × α)} {id : Nat}
    (h : lookupId m id = none) (v : α) : emplaceHint m id v = m ++ [(id, v)] := by
  simp [emplaceHint, h]

theorem countIf_append (f : ConnInfo → Bool) (a b : List (Nat × ConnInfo)) :
    countIf f (a ++ b) = countIf f a + countIf f b := by
  induction a with
  | nil => simp [countIf]
  | cons p rest ih =>
    obtain ⟨k, v⟩ := p
    show countIf f ((k, v) :: (rest ++ b)) = countIf f ((k, v) :: rest) + countIf f b
    simp only [countIf, ih]
    omega

theorem countIf_eraseId (f : ConnInfo → Bool) {m : List (Nat × ConnInfo)} {id : Nat}
    {v : ConnInfo} (hnd : (keysOf m).Nodup) (h : lookupId m id = some v) :
    countIf f m = countIf f (eraseId m id) + (if f v then 1 else 0) := by
  induction m with
  | nil => simp [lookupId] at h
  | cons p rest ih =>
    obtain ⟨k, w⟩ := p
    rw [keysOf_cons, List.nodup_cons] at hnd
    by_cases hk : k = id
    · simp only [lookupId, if_pos hk] at h
      have hv : w = v := Option.some.inj h
      subst hv
      subst hk
      have hrest : k ∉ keysOf rest := hnd.1
      simp [eraseId, eraseId_eq_of_not_mem hrest, countIf]
      omega
    · simp only [lookupId, if_neg hk] at h
      have := ih hnd.2 h
      simp only [eraseId, if_neg hk, countIf, this]
      omega

theorem keysOf_updateId {α : Type} (m : List (Nat × α)) (id : Nat) (v : α) :
    keysOf (updateId m id v) = keysOf m := by
  induction m with
  | nil => rfl
  | cons p rest ih =>
    obtain ⟨k, w⟩ := p
    by_cases hk : k = id
    · simp only [updateId, if_pos hk, keysOf_cons]
    · simp only [updateId, if_neg hk, keysOf_cons, ih]

theorem countIf_updateId (f : ConnInfo → Bool) {m : List (Nat × ConnInfo)} {id : Nat}
    {v v' : ConnInfo} (h : lookupId m id = some v) (hf : f v' = f v) :
    countIf f (updateId m id v') = countIf f m := by
  induction m with
  | nil => simp [lookupId] at h
  | cons p rest ih =>
    obtain ⟨k, w⟩ := p
    by_cases hk : k = id
    · simp only [lookupId, if_pos hk] at h
      have hv : w = v := Option.some.inj h
      subst hv
      simp only [updateId, if_pos hk, countIf, hf]
    · simp only [lookupId, if_neg hk] at h
      simp only [updateId, if_neg hk, countIf, ih h]

/-! ## Key discipline: uniqueness, bound by the id counter, disjointness -/

/-- Keys are distinct and all below the counter `n`. -/
def keysOk {α : Type} (m : List (Nat × α)) (n : Nat) : Prop :=
  (keysOf m).Nodup ∧ ∀ k ∈ keysOf m, k < n

/-- No key occurs in both maps. -/
def keysDisjoint {α β : Type} (m₁ : List (Nat × α)) (m₂ : List (Nat × β)) : Prop :=
  ∀ k, k ∈ keysOf m₁ → k ∉ keysOf m₂

theorem keysOk_weaken {α : Type} {m : List (Nat × α)} {n n' : Nat}
    (h : keysOk m n) (hn : n ≤ n') : keysOk m n' :=
  ⟨h.1, fun k hk => lt_of_lt_of_le (h.2 k hk) hn⟩

theorem keysOk_eraseId {α : Type} {m : List (Nat × α)} {n : Nat}
    (h : keysOk m n) (id : Nat) : keysOk (eraseId m id) n :=
  ⟨h.1.sublist (keysOf_eraseId_sublist m id),
   fun k hk => h.2 k ((keysOf_eraseId_sublist m id).subset hk)⟩

theorem keysOk_updateId {α : Type} {m : List (Nat × α)} {n : Nat}
    (h : keysOk m n) (id : Nat) (v : α) : keysOk (updateId m id v) n := by
  unfold keysOk
  rw [keysOf_updateId]
  exact h

theorem keysOk_snoc {α : Type} {m : List (Nat × α)} {n : Nat}
    (h : keysOk m n) (v : α) : keysOk (m ++ [(n, v)]) (n + 1) := by
  have hks : keysOf [(n, v)] = [n] := rfl
  constructor
  · rw [keysOf_append, hks]
    refine List.Nodup.append h.1 (List.nodup_singleton n) ?_
    intro k hk hk'
    have hkn : k = n := List.mem_singleton.mp hk'
    subst hkn
    exact absurd (h.2 k hk) (lt_irrefl k)
  · intro k hk
    rw [keysOf_append, hks] at hk
    rcases List.mem_append.mp hk with hk | hk
    · exact lt_trans (h.2 k hk) (Nat.lt_succ_self n)
    · have hkn : k = n := List.mem_singleton.mp hk
      omega

theorem lookupId_eq_none_of_keysOk {α : Type} {m : List (Nat × α)} {n : Nat}
    (h : keysOk m n) : lookupId m n = none :=
  (lookupId_eq_none m n).mpr fun hm => absurd (h.2 n hm) (lt_irrefl n)

theorem keysOf_singleton {α : Type} (n : Nat) (v : α) : keysOf [(n, v)] = [n] := rfl

theorem keysOk_snoc_lt {α : Type} {m : List (Nat × α)} {n id : Nat}
    (h : keysOk m n) (hid : id < n) (hnot : id ∉ keysOf m) (v : α) :
    keysOk (m ++ [(id, v)]) n := by
  constructor
  · rw [keysOf_append, keysOf_singleton]
    refine List.Nodup.append h.1 (List.nodup_singleton id) ?_
    intro k hk hk'
    have hkid : k = id := List.mem_singleton.mp hk'
    subst hkid
    exact hnot hk
  · intro k hk
    rw [keysOf_append, keysOf_singleton] at hk
    rcases List.mem_append.mp hk with hk | hk
    · exact h.2 k hk
    · have hkid : k = id := List.mem_singleton.mp hk
      omega

/-! ## The handler invariant -/

/-- The state invariant maintained at operation boundaries: the two live
counts agree with the contents of `m_connected`, keys of `m_connected`
and `m_connecting` are distinct and below the id counter, and no id is
in both maps at once. -/
def GoodS (s : HandlerState) : Prop :=
  s.outgoingConnCount = (countOutgoing s.connected : Int) ∧
  s.incomingConnCount = (countIncoming s.connected : Int) ∧
  keysOk s.connected s.connectionIndex ∧
  keysOk s.connecting s.connectionIndex ∧
  keysDisjoint s.connected s.connecting

theorem good_initState (L : Int) : GoodS (initState L) := by
  refine ⟨rfl, rfl, ⟨List.nodup_nil, ?_⟩, ⟨List.nodup_nil, ?_⟩, ?_⟩ <;>
    intro k hk <;> simp [initState, keysOf] at hk

/-- Changing only `m_dns_resolves`, `m_binds` and (weakly increasing)
the id counter preserves the invariant. -/
theorem good_core (s : HandlerState) (d : List (Nat × ConnInfo))
    (b : List (Nat × CConnection)) (n : Nat)
    (hn : s.connectionIndex ≤ n) (h : GoodS s) :
    GoodS { s with connectionIndex := n, dnsResolves := d, binds := b } := by
  obtain ⟨h1, h2, h3, h4, h5⟩ := h
  exact ⟨h1, h2, keysOk_weaken h3 hn, keysOk_weaken h4 hn, h5⟩

/-- Allocating a fresh id and inserting into `m_connecting` preserves
the invariant when the counter has not wrapped. -/
theorem good_insert_connecting (s : HandlerState) (v : ConnInfo)
    (h : GoodS s) (hidx : s.connectionIndex < connIdModulus) :
    GoodS { s with connectionIndex := s.connectionIndex + 1,
                   connecting := emplaceHint s.connecting (allocConnId s.connectionIndex) v } := by
  obtain ⟨h1, h2, h3, h4, h5⟩ := h
  have hid : allocConnId s.connectionIndex = s.connectionIndex := Nat.mod_eq_of_lt hidx
  rw [hid]
  have hnone : lookupId s.connecting s.connectionIndex = none := lookupId_eq_none_of_keysOk h4
  rw [emplaceHint_of_none hnone]
  refine ⟨h1, h2, keysOk_weaken h3 (Nat.le_succ _), keysOk_snoc h4 v, ?_⟩
  intro k hk hk'
  rw [keysOf_append, keysOf_singleton] at hk'
  rcases List.mem_append.mp hk' with hm | hm
  · exact h5 k hk hm
  · have hkn : k = s.connectionIndex := List.mem_singleton.mp hm
    have := h3.2 k hk
    omega

/-- Mutating the object of a connected entry without changing its
direction preserves the invariant. -/
theorem good_update_connected (s : HandlerState) (id : Nat) (info v' : ConnInfo)
    (hl : lookupId s.connected id = some info) (hv : v'.variant = info.variant)
    (h : GoodS s) : GoodS { s with connected := updateId s.connected id v' } := by
  obtain ⟨h1, h2, h3, h4, h5⟩ := h
  have hout : (fun v : ConnInfo => v.variant.isOutgoing) v' =
      (fun v : ConnInfo => v.variant.isOutgoing) info := by simp [hv]
  have hin : (fun v : ConnInfo => !v.variant.isOutgoing) v' =
      (fun v : ConnInfo => !v.variant.isOutgoing) info := by simp [hv]
  refine ⟨?_, ?_, keysOk_updateId h3 id v', h4, ?_⟩
  · unfold countOutgoing
    rw [countIf_updateId _ hl hout]
    exact h1
  · unfold countIncoming
    rw [countIf_updateId _ hl hin]
    exact h2
  · intro k hk
    rw [keysOf_updateId] at hk
    exact h5 k hk

/-! ## Preservation of the invariant by each operation -/

theorem startConnection_index (c : CConnection) (s : HandlerState) :
    (StartConnection c s).1.connectionIndex = s.connectionIndex + 1 := by
  unfold StartConnection
  by_cases hc : c.isDNS ∧ c.doResolve = DoResolveOpt.RESOLVE_ONLY
  · by_cases hp : c.proxySet <;> simp [hc, hp]
  · simp [hc]

theorem good_StartConnection (c : CConnection) (s : HandlerState)
    (h : GoodS s) (hidx : s.connectionIndex < connIdModulus) :
    GoodS (StartConnection c s).1 := by
  unfold StartConnection
  by_cases hc : c.isDNS ∧ c.doResolve = DoResolveOpt.RESOLVE_ONLY
  · by_cases hp : c.proxySet
    · simp only [hc, hp, if_true, and_self]
      exact good_core s s.dnsResolves s.binds (s.connectionIndex + 1) (Nat.le_succ _) h
    · simp only [hc, hp, if_true, if_false, and_self]
      exact good_core s _ s.binds (s.connectionIndex + 1) (Nat.le_succ _) h
  · simp only [hc, if_false]
    exact good_insert_connecting s _ h hidx

theorem startMany_index_le (cs : List CConnection) (s : HandlerState) :
    s.connectionIndex ≤ (startMany cs s).1.connectionIndex := by
  induction cs generalizing s with
  | nil => exact Nat.le_refl _
  | cons c rest ih =>
    by_cases hset : c.isSet
    · simp only [startMany, hset, if_true]
      have h1 := startConnection_index c s
      have h2 := ih (StartConnection c s).1
      omega
    · simpa only [startMany, hset, if_false] using ih s

theorem good_startMany (cs : List CConnection) (s : HandlerState)
    (h : GoodS s) (hidx : (startMany cs s).1.connectionIndex ≤ connIdModulus) :
    GoodS (startMany cs s).1 := by
  induction cs generalizing s with
  | nil => exact h
  | cons c rest ih =>
    by_cases hset : c.isSet
    · simp only [startMany, hset, if_true] at hidx ⊢
      have h1 := startConnection_index c s
      have h2 := startMany_index_le rest (StartConnection c s).1
      exact ih (StartConnection c s).1 (good_StartConnection c s h (by omega)) hidx
    · simp only [startMany, hset, if_false] at hidx ⊢
      exact ih s h hidx

theorem requestOutgoing_index_le (r : Nat → List CConnection) (s : HandlerState) :
    s.connectionIndex ≤ (RequestOutgoingInt r s).1.connectionIndex := by
  unfold RequestOutgoingInt
  by_cases hp : 0 < needValue s
  · simp only [hp, if_true]
    exact startMany_index_le _ s
  · simp only [hp, if_false]
    exact Nat.le_refl _

theorem good_RequestOutgoingInt (r : Nat → List CConnection) (s : HandlerState)
    (h : GoodS s) (hidx : (RequestOutgoingInt r s).1.connectionIndex ≤ connIdModulus) :
    GoodS (RequestOutgoingInt r s).1 := by
  unfold RequestOutgoingInt at hidx ⊢
  by_cases hp : 0 < needValue s
  · simp only [hp, if_true] at hidx ⊢
    exact good_startMany _ s h hidx
  · simpa only [hp, if_false] using h

theorem good_OnOutgoingConnected (id : Nat) (s : HandlerState) (h : GoodS s) :
    GoodS (OnOutgoingConnected id s).1 := by
  obtain ⟨h1, h2, h3, h4, h5⟩ := h
  cases hl : lookupId s.connecting id with
  | none =>
    simp only [OnOutgoingConnected, hl]
    exact ⟨h1, h2, h3, h4, h5⟩
  | some info =>
    cases hob : info.variant.isOutgoing with
    | false =>
      simp only [OnOutgoingConnected, hl, hob, Bool.false_eq_true, if_false]
      exact ⟨h1, h2, h3, h4, h5⟩
    | true =>
      simp only [OnOutgoingConnected, hl, hob, if_true]
      have hidk : id ∈ keysOf s.connecting := mem_keysOf_of_lookup hl
      have hidlt : id < s.connectionIndex := h4.2 id hidk
      have hnotc : id ∉ keysOf s.connected := fun hm => h5 id hm hidk
      have hnone : lookupId s.connected id = none := (lookupId_eq_none _ _).mpr hnotc
      rw [emplaceHint_of_none hnone]
      refine ⟨?_, ?_, keysOk_snoc_lt h3 hidlt hnotc info, keysOk_eraseId h4 id, ?_⟩
      · have hc : countOutgoing (s.connected ++ [(id, info)]) = countOutgoing s.connected + 1 := by
          unfold countOutgoing
          rw [countIf_append]
          simp [countIf, hob]
        rw [hc]
        push_cast
        omega
      · have hc : countIncoming (s.connected ++ [(id, info)]) = countIncoming s.connected := by
          unfold countIncoming
          rw [countIf_append]
          simp [countIf, hob]
        rw [hc]
        exact h2
      · intro k hk hk'
        rw [keysOf_append, keysOf_singleton] at hk
        rcases List.mem_append.mp hk with hm | hm
        · exact h5 k hm ((keysOf_eraseId_sublist _ _).subset hk')
        · have hkid : k = id := List.mem_singleton.mp hm
          subst hkid
          exact not_mem_keysOf_eraseId _ _ hk'

theorem good_OnIncomingConnection (c : CConnection) (s : HandlerState)
    (h : GoodS s) (hidx : s.connectionIndex < connIdModulus) :
    GoodS (OnIncomingConnection c s).1 :=
  good_insert_connecting s _ h hidx

theorem good_OnIncomingConnected (id : Nat) (a : Bool) (s : HandlerState) (h : GoodS s) :
    GoodS (OnIncomingConnected id a s).1 := by
  obtain ⟨h1, h2, h3, h4, h5⟩ := h
  cases hl : lookupId s.connecting id with
  | none =>
    simp only [OnIncomingConnected, hl]
    exact ⟨h1, h2, h3, h4, h5⟩
  | some info =>
    by_cases hv : info.variant = Variant.Incoming
    · cases a with
      | false =>
        simp only [OnIncomingConnected, hl, hv, if_true, Bool.false_eq_true, if_false]
        exact ⟨h1, h2, h3, keysOk_eraseId h4 id,
          fun k hk hk' => h5 k hk ((keysOf_eraseId_sublist _ _).subset hk')⟩
      | true =>
        simp only [OnIncomingConnected, hl, hv, if_true]
        have hob : info.variant.isOutgoing = false := by rw [hv]; rfl
        have hidk : id ∈ keysOf s.connecting := mem_keysOf_of_lookup hl
        have hidlt : id < s.connectionIndex := h4.2 id hidk
        have hnotc : id ∉ keysOf s.connected := fun hm => h5 id hm hidk
        have hnone : lookupId s.connected id = none := (lookupId_eq_none _ _).mpr hnotc
        rw [emplaceHint_of_none hnone]
        refine ⟨?_, ?_, keysOk_snoc_lt h3 hidlt hnotc info, keysOk_eraseId h4 id, ?_⟩
        · have hc : countOutgoing (s.connected ++ [(id, info)]) = countOutgoing s.connected := by
            unfold countOutgoing
            rw [countIf_append]
            simp [countIf, hob]
          rw [hc]
          exact h1
        · have hc : countIncoming (s.connected ++ [(id, info)]) = countIncoming s.connected + 1 := by
            unfold countIncoming
            rw [countIf_append]
            simp [countIf, hob]
          rw [hc]
          push_cast
          omega
        · intro k hk hk'
          rw [keysOf_append, keysOf_singleton] at hk
          rcases List.mem_append.mp hk with hm | hm
          · exact h5 k hm ((keysOf_eraseId_sublist _ _).subset hk')
          · have hkid : k = id := List.mem_singleton.mp hm
            subst hkid
            exact not_mem_keysOf_eraseId _ _ hk'
    · simp only [OnIncomingConnected, hl, hv, if_false]
      exact ⟨h1, h2, h3, h4, h5⟩

theorem good_OnDisconnected (id : Nat) (rc : Bool) (s : HandlerState)
    (h : GoodS s) (hidx : (OnDisconnected id rc s).1.connectionIndex ≤ connIdModulus) :
    GoodS (OnDisconnected id rc s).1 := by
  obtain ⟨h1, h2, h3, h4, h5⟩ := h
  cases hl : lookupId s.connected id with
  | none =>
    simp only [OnDisconnected, hl]
    exact ⟨h1, h2, h3, h4, h5⟩
  | some info =>
    have hidk : id ∈ keysOf s.connected := mem_keysOf_of_lookup hl
    have hidlt : id < s.connectionIndex := h3.2 id hidk
    have hcO : countOutgoing s.connected =
        countOutgoing (eraseId s.connected id) +
          (if info.variant.isOutgoing then 1 else 0) :=
      countIf_eraseId _ h3.1 hl
    have hcI : countIncoming s.connected =
        countIncoming (eraseId s.connected id) +
          (if info.variant.isOutgoing then 0 else 1) := by
      have hx := countIf_eraseId (fun v => !v.variant.isOutgoing) h3.1 hl
      cases hob : info.variant.isOutgoing <;> simpa [hob, countIncoming] using hx
    have hdisj : ∀ k, k ∈ keysOf (eraseId s.connected id) → k ∉ keysOf s.connecting :=
      fun k hk => h5 k ((keysOf_eraseId_sublist _ _).subset hk)
    by_cases hr : (rc && !s.shutdown) = true
    · simp only [OnDisconnected, hl, hr, if_true] at hidx ⊢
      have hlt : s.connectionIndex < connIdModulus := by omega
      have hid : allocConnId s.connectionIndex = s.connectionIndex := Nat.mod_eq_of_lt hlt
      rw [hid]
      have hnone : lookupId s.connecting s.connectionIndex = none :=
        lookupId_eq_none_of_keysOk h4
      rw [emplaceHint_of_none hnone]
      refine ⟨?_, ?_, keysOk_weaken (keysOk_eraseId h3 id) (Nat.le_succ _),
        keysOk_snoc h4 info, ?_⟩
      · cases hob : info.variant.isOutgoing <;> simp [hob] at hcO hcI ⊢ <;> omega
      · cases hob : info.variant.isOutgoing <;> simp [hob] at hcO hcI ⊢ <;> omega
      · intro k hk hk'
        rw [keysOf_append, keysOf_singleton] at hk'
        rcases List.mem_append.mp hk' with hm | hm
        · exact hdisj k hk hm
        · have hkn : k = s.connectionIndex := List.mem_singleton.mp hm
          have hklt : k < s.connectionIndex :=
            h3.2 k ((keysOf_eraseId_sublist _ _).subset hk)
          omega
    · simp only [OnDisconnected, hl, hr, if_false]
      refine ⟨?_, ?_, keysOk_eraseId h3 id, h4, hdisj⟩
      · cases hob : info.variant.isOutgoing <;> simp [hob] at hcO hcI ⊢ <;> omega
      · cases hob : info.variant.isOutgoing <;> simp [hob] at hcO hcI ⊢ <;> omega

theorem good_OnConnectionFailure (id : Nat) (t : FailureType) (rc : Bool) (s : HandlerState)
    (h : GoodS s) (hidx : (OnConnectionFailure id t rc s).1.connectionIndex ≤ connIdModulus) :
    GoodS (OnConnectionFailure id t rc s).1 := by
  obtain ⟨h1, h2, h3, h4, h5⟩ := h
  cases hl : lookupId s.connecting id with
  | none =>
    simp only [OnConnectionFailure, hl]
    exact ⟨h1, h2, h3, h4, h5⟩
  | some info =>
    have hdisj : ∀ k, k ∈ keysOf s.connected → k ∉ keysOf (eraseId s.connecting id) :=
      fun k hk hk' => h5 k hk ((keysOf_eraseId_sublist _ _).subset hk')
    by_cases hr : (rc && !s.shutdown) = true
    · simp only [OnConnectionFailure, hl, hr, if_true] at hidx ⊢
      have hlt : s.connectionIndex < connIdModulus := by omega
      have hid : allocConnId s.connectionIndex = s.connectionIndex := Nat.mod_eq_of_lt hlt
      rw [hid]
      have hnone : lookupId (eraseId s.connecting id) s.connectionIndex = none :=
        lookupId_eq_none_of_keysOk (keysOk_eraseId h4 id)
      rw [emplaceHint_of_none hnone]
      refine ⟨h1, h2, keysOk_weaken h3 (Nat.le_succ _),
        keysOk_snoc (keysOk_eraseId h4 id) info, ?_⟩
      intro k hk hk'
      rw [keysOf_append, keysOf_singleton] at hk'
      rcases List.mem_append.mp hk' with hm | hm
      · exact hdisj k hk hm
      · have hkn : k = s.connectionIndex := List.mem_singleton.mp hm
        have hklt : k < s.connectionIndex := h3.2 k hk
        omega
    · simp only [OnConnectionFailure, hl, hr, if_false]
      exact ⟨h1, h2, h3, keysOk_eraseId h4 id, hdisj⟩

theorem good_ShutdownInt (s : HandlerState) (h : GoodS s) : GoodS (ShutdownInt s).1 := by
  obtain ⟨h1, h2, h3, h4, h5⟩ := h
  unfold ShutdownInt
  by_cases hs : s.shutdown = true
  · simp only [hs, if_true]
    exact ⟨h1, h2, h3, h4, h5⟩
  · simp only [hs, Bool.false_eq_true, if_false]
    refine ⟨?_, ?_, ⟨List.nodup_nil, ?_⟩, ⟨List.nodup_nil, ?_⟩, ?_⟩
    · show s.outgoingConnCount - (countOutgoing s.connected : Int) =
        ((countOutgoing ([] : List (Nat × ConnInfo)) : Nat) : Int)
      have hz : countOutgoing ([] : List (Nat × ConnInfo)) = 0 := rfl
      rw [hz]
      omega
    · show s.incomingConnCount - (countIncoming s.connected : Int) =
        ((countIncoming ([] : List (Nat × ConnInfo)) : Nat) : Int)
      have hz : countIncoming ([] : List (Nat × ConnInfo)) = 0 := rfl
      rw [hz]
      omega
    · intro k hk
      simp [keysOf] at hk
    · intro k hk
      simp [keysOf] at hk
    · intro k hk
      simp [keysOf] at hk

theorem good_OnResolveComplete (id : Nat) (s : HandlerState) (h : GoodS s) :
    GoodS (OnResolveComplete id s).1 :=
  good_core s _ s.binds s.connectionIndex (Nat.le_refl _) h

theorem good_OnResolveFailure (id : Nat) (rc : Bool) (s : HandlerState) (h : GoodS s) :
    GoodS (OnResolveFailure id rc s).1 := by
  unfold OnResolveFailure
  cases hl : lookupId s.dnsResolves id with
  | none => exact h
  | some info =>
    by_cases hr : (rc && !s.shutdown) = true
    · simp only [hr, if_true]
      exact h
    · simp only [hr, Bool.false_eq_true, if_false]
      exact good_core s _ s.binds s.connectionIndex (Nat.le_refl _) h

theorem good_HandlerBind (c : CConnection) (ok : Bool) (s : HandlerState) (h : GoodS s) :
    GoodS (HandlerBind c ok s).1 := by
  unfold HandlerBind
  cases ok with
  | true =>
    simp only [if_true]
    exact good_core s s.dnsResolves _ (s.connectionIndex + 1) (Nat.le_succ _) h
  | false =>
    simp only [Bool.false_eq_true, if_false]
    exact good_core s s.dnsResolves s.binds (s.connectionIndex + 1) (Nat.le_succ _) h

theorem good_OnListenFailure (id : Nat) (s : HandlerState) (h : GoodS s) :
    GoodS (OnListenFailure id s).1 :=
  good_core s s.dnsResolves _ s.connectionIndex (Nat.le_refl _) h

theorem good_Send (id n : Nat) (s : HandlerState) (h : GoodS s) :
    GoodS (Send id n s).1 := by
  unfold Send
  cases hl : lookupId s.connected id with
  | none => exact h
  | some info => exact good_update_connected s id info _ hl rfl h

theorem good_CloseConnection (id : Nat) (imm : Bool) (s : HandlerState) (h : GoodS s) :
    GoodS (CloseConnection id imm s) := by
  unfold CloseConnection
  cases hl : lookupId s.connected id with
  | none => exact h
  | some info => exact good_update_connected s id info _ hl rfl h

theorem good_PauseRecv (id : Nat) (s : HandlerState) (h : GoodS s) :
    GoodS (PauseRecv id s) := by
  unfold PauseRecv
  cases hl : lookupId s.connected id with
  | none => exact h
  | some info => exact good_update_connected s id info _ hl rfl h

theorem good_UnpauseRecv (id : Nat) (s : HandlerState) (h : GoodS s) :
    GoodS (UnpauseRecv id s) := by
  unfold UnpauseRecv
  cases hl : lookupId s.connected id with
  | none => exact h
  | some info => exact good_update_connected s id info _ hl rfl h

theorem good_SetRateLimit (id : Nat) (l : CRateLimit) (s : HandlerState) (h : GoodS s) :
    GoodS (SetRateLimit id l s) := by
  unfold SetRateLimit
  cases hl : lookupId s.connected id with
  | none => exact h
  | some info => exact good_update_connected s id info _ hl rfl h

theorem step_index_le (op : Op) (s : HandlerState) :
    s.connectionIndex ≤ (step op s).1.connectionIndex := by
  cases op with
  | startConn c =>
    have hx := startConnection_index c s
    show s.connectionIndex ≤ (StartConnection c s).1.connectionIndex
    omega
  | requestOutgoing r => exact requestOutgoing_index_le r s
  | bindListener c ok =>
    show s.connectionIndex ≤ (HandlerBind c ok s).1.connectionIndex
    unfold HandlerBind
    cases ok <;> simp
  | listenFailed id => exact Nat.le_refl _
  | incomingAccepted c => exact Nat.le_succ _
  | incomingConnected id a =>
    show s.connectionIndex ≤ (OnIncomingConnected id a s).1.connectionIndex
    unfold OnIncomingConnected
    cases hl : lookupId s.connecting id with
    | none => exact Nat.le_refl _
    | some info =>
      by_cases hv : info.variant = Variant.Incoming <;> cases a <;> simp [hv]
  | outgoingConnected id =>
    show s.connectionIndex ≤ (OnOutgoingConnected id s).1.connectionIndex
    unfold OnOutgoingConnected
    cases hl : lookupId s.connecting id with
    | none => exact Nat.le_refl _
    | some info => cases hob : info.variant.isOutgoing <;> simp [hob]
  | connDisconnected id rc =>
    show s.connectionIndex ≤ (OnDisconnected id rc s).1.connectionIndex
    unfold OnDisconnected
    cases hl : lookupId s.connected id with
    | none => exact Nat.le_refl _
    | some info => by_cases hr : (rc && !s.shutdown) = true <;> simp [hr]
  | connFailed id t rc =>
    show s.connectionIndex ≤ (OnConnectionFailure id t rc s).1.connectionIndex
    unfold OnConnectionFailure
    cases hl : lookupId s.connecting id with
    | none => exact Nat.le_refl _
    | some info => by_cases hr : (rc && !s.shutdown) = true <;> simp [hr]
  | resolveComplete id => exact Nat.le_refl _
  | resolveFailed id rc =>
    show s.connectionIndex ≤ (OnResolveFailure id rc s).1.connectionIndex
    unfold OnResolveFailure
    cases hl : lookupId s.dnsResolves id with
    | none => exact Nat.le_refl _
    | some info => by_cases hr : (rc && !s.shutdown) = true <;> simp [hr]
  | shutdownEvent =>
    show s.connectionIndex ≤ (ShutdownInt s).1.connectionIndex
    unfold ShutdownInt
    by_cases hs : s.shutdown = true <;> simp [hs]
  | closeCmd id imm =>
    show s.connectionIndex ≤ (CloseConnection id imm s).connectionIndex
    unfold CloseConnection
    cases hl : lookupId s.connected id with
    | none => exact Nat.le_refl _
    | some info => exact Nat.le_refl _
  | sendCmd id n =>
    show s.connectionIndex ≤ (Send id n s).1.connectionIndex
    unfold Send
    cases hl : lookupId s.connected id with
    | none => exact Nat.le_refl _
    | some info => exact Nat.le_refl _
  | pauseCmd id =>
    show s.connectionIndex ≤ (PauseRecv id s).connectionIndex
    unfold PauseRecv
    cases hl : lookupId s.connected id with
    | none => exact Nat.le_refl _
    | some info => exact Nat.le_refl _
  | unpauseCmd id =>
    show s.connectionIndex ≤ (UnpauseRecv id s).connectionIndex
    unfold UnpauseRecv
    cases hl : lookupId s.connected id with
    | none => exact Nat.le_refl _
    | some info => exact Nat.le_refl _
  | rateCmd id l =>
    show s.connectionIndex ≤ (SetRateLimit id l s).connectionIndex
    unfold SetRateLimit
    cases hl : lookupId s.connected id with
    | none => exact Nat.le_refl _
    | some info => exact Nat.le_refl _

theorem run_index_le (ops : List Op) (s : HandlerState) :
    s.connectionIndex ≤ (run ops s).1.connectionIndex := by
  induction ops generalizing s with
  | nil => exact Nat.le_refl _
  | cons op rest ih =>
    have h1 := step_index_le op s
    have h2 := ih (step op s).1
    show s.connectionIndex ≤ (run rest (step op s).1).1.connectionIndex
    omega

theorem good_step (op : Op) (s : HandlerState) (h : GoodS s)
    (hidx : (step op s).1.connectionIndex ≤ connIdModulus) :
    GoodS (step op s).1 := by
  cases op with
  | startConn c =>
    have hx := startConnection_index c s
    exact good_StartConnection c s h (by simp only [step] at hidx; omega)
  | requestOutgoing r => exact good_RequestOutgoingInt r s h hidx
  | bindListener c ok => exact good_HandlerBind c ok s h
  | listenFailed id => exact good_OnListenFailure id s h
  | incomingAccepted c =>
    exact good_OnIncomingConnection c s h (by simp only [step, OnIncomingConnection] at hidx; omega)
  | incomingConnected id a => exact good_OnIncomingConnected id a s h
  | outgoingConnected id => exact good_OnOutgoingConnected id s h
  | connDisconnected id rc => exact good_OnDisconnected id rc s h hidx
  | connFailed id t rc => exact good_OnConnectionFailure id t rc s h hidx
  | resolveComplete id => exact good_OnResolveComplete id s h
  | resolveFailed id rc => exact good_OnResolveFailure id rc s h
  | shutdownEvent => exact good_ShutdownInt s h
  | closeCmd id imm => exact good_CloseConnection id imm s h
  | sendCmd id n => exact good_Send id n s h
  | pauseCmd id => exact good_PauseRecv id s h
  | unpauseCmd id => exact good_UnpauseRecv id s h
  | rateCmd id l => exact good_SetRateLimit id l s h

theorem good_run (ops : List Op) (s : HandlerState) (h : GoodS s)
    (hidx : (run ops s).1.connectionIndex ≤ connIdModulus) :
    GoodS (run ops s).1 := by
  induction ops generalizing s with
  | nil => exact h
  | cons op rest ih =>
    have hrun : (run (op :: rest) s).1 = (run rest (step op s).1).1 := rfl
    rw [hrun] at hidx ⊢
    have hle := run_index_le rest (step op s).1
    exact ih (step op s).1 (good_step op s h (by omega)) hidx

/-! ## Callback ordering: `OnOutgoingConnection` precedes `OnReadyForFirstSend` -/

/-- Scan of a callback trace: `readyOk t seen` is true when every
`readyForFirstSend id` in `t` is preceded (in `t` or in `seen`) by an
`outgoingConnection id`. -/
def readyOk : List Ev → List Nat → Bool
  | [], _ => true
  | .outgoingConnection id :: rest, seen => readyOk rest (id :: seen)
  | .readyForFirstSend id :: rest, seen => decide (id ∈ seen) && readyOk rest seen
  | _ :: rest, seen => readyOk rest seen

/-- The ids whose `outgoingConnection` events in `t` have been added to
`seen` after scanning all of `t`. -/
def seenAfter : List Ev → List Nat → List Nat
  | [], seen => seen
  | .outgoingConnection id :: rest, seen => seenAfter rest (id :: seen)
  | _ :: rest, seen => seenAfter rest seen

theorem readyOk_append (a b : List Ev) (seen : List Nat) :
    readyOk (a ++ b) seen = (readyOk a seen && readyOk b (seenAfter a seen)) := by
  induction a generalizing seen with
  | nil => simp [readyOk, seenAfter]
  | cons e rest ih =>
    cases e <;> simp [readyOk, seenAfter, ih, Bool.and_assoc]

theorem readyOk_of_no_ready (t : List Ev) (seen : List Nat)
    (h : ∀ id, Ev.readyForFirstSend id ∉ t) : readyOk t seen = true := by
  induction t generalizing seen with
  | nil => rfl
  | cons e rest ih =>
    have hrest : ∀ id, Ev.readyForFirstSend id ∉ rest :=
      fun id hm => h id (List.mem_cons_of_mem _ hm)
    cases e <;>
      first
        | exact absurd (List.mem_cons_self _ _) (h _)
        | exact ih _ hrest

theorem startConnection_no_ready (c : CConnection) (s : HandlerState) (id : Nat) :
    Ev.readyForFirstSend id ∉ (StartConnection c s).2 := by
  unfold StartConnection
  by_cases hc : c.isDNS ∧ c.doResolve = DoResolveOpt.RESOLVE_ONLY
  · by_cases hp : c.proxySet <;> simp [hc, hp]
  · simp [hc]

theorem startMany_no_ready (cs : List CConnection) (s : HandlerState) (id : Nat) :
    Ev.readyForFirstSend id ∉ (startMany cs s).2 := by
  induction cs generalizing s with
  | nil => simp [startMany]
  | cons c rest ih =>
    by_cases hset : c.isSet
    · simp only [startMany, hset, if_true]
      intro hm
      rcases List.mem_append.mp hm with hm | hm
      · exact startConnection_no_ready c s id hm
      · exact ih _ hm
    · simp only [startMany, hset, if_false]
      exact ih s

theorem readyOk_step (op : Op) (s : HandlerState) (seen : List Nat) :
    readyOk (step op s).2 seen = true := by
  cases op with
  | startConn c =>
    exact readyOk_of_no_ready _ seen fun id => startConnection_no_ready c s id
  | requestOutgoing r =>
    show readyOk (RequestOutgoingInt r s).2 seen = true
    unfold RequestOutgoingInt
    by_cases hp : 0 < needValue s
    · simp only [hp, if_true]
      apply readyOk_of_no_ready
      intro id hm
      rcases List.mem_cons.mp hm with he | hm
      · exact Ev.noConfusion he
      · exact startMany_no_ready _ s id hm
    · simp only [hp, if_false]
      rfl
  | bindListener c ok =>
    show readyOk (HandlerBind c ok s).2 seen = true
    unfold HandlerBind
    cases ok <;> simp [readyOk]
  | listenFailed id => rfl
  | incomingAccepted c => rfl
  | incomingConnected id a =>
    show readyOk (OnIncomingConnected id a s).2 seen = true
    unfold OnIncomingConnected
    cases hl : lookupId s.connecting id with
    | none => rfl
    | some info =>
      by_cases hv : info.variant = Variant.Incoming <;> cases a <;> simp [hv, readyOk]
  | outgoingConnected id =>
    show readyOk (OnOutgoingConnected id s).2 seen = true
    unfold OnOutgoingConnected
    cases hl : lookupId s.connecting id with
    | none => rfl
    | some info =>
      cases hob : info.variant.isOutgoing <;> simp [hob, readyOk]
  | connDisconnected id rc =>
    show readyOk (OnDisconnected id rc s).2 seen = true
    unfold OnDisconnected
    cases hl : lookupId s.connected id with
    | none => rfl
    | some info =>
      by_cases hr : (rc && !s.shutdown) = true <;> simp [hr, readyOk]
  | connFailed id t rc =>
    show readyOk (OnConnectionFailure id t rc s).2 seen = true
    unfold OnConnectionFailure
    cases hl : lookupId s.connecting id with
    | none => rfl
    | some info =>
      by_cases hr : (rc && !s.shutdown) = true <;> cases t <;> simp [hr, readyOk]
  | resolveComplete id => rfl
  | resolveFailed id rc =>
    show readyOk (OnResolveFailure id rc s).2 seen = true
    unfold OnResolveFailure
    cases hl : lookupId s.dnsResolves id with
    | none => rfl
    | some info =>
      by_cases hr : (rc && !s.shutdown) = true <;> simp [hr, readyOk]
  | shutdownEvent =>
    show readyOk (ShutdownInt s).2 seen = true
    unfold ShutdownInt
    by_cases hs : s.shutdown = true
    · simp [hs, readyOk]
    · simp only [hs, Bool.false_eq_true, if_false]
      apply readyOk_of_no_ready
      intro id hm
      rcases List.mem_append.mp hm with hm | hm
      · rcases List.mem_map.mp hm with ⟨p, _, hp⟩
        exact Ev.noConfusion hp
      · rcases List.mem_map.mp hm with ⟨p, _, hp⟩
        exact Ev.noConfusion hp
  | closeCmd id imm => rfl
  | sendCmd id n => rfl
  | pauseCmd id => rfl
  | unpauseCmd id => rfl
  | rateCmd id l => rfl

theorem readyOk_run (ops : List Op) (s : HandlerState) (seen : List Nat) :
    readyOk (run ops s).2 seen = true := by
  induction ops generalizing s seen with
  | nil => rfl
  | cons op rest ih =>
    show readyOk ((step op s).2 ++ (run rest (step op s).1).2) seen = true
    rw [readyOk_append, readyOk_step op s seen, Bool.true_and]
    exact ih _ _

theorem readyOk_precedes (suf : List Ev) (id : Nat) (pre : List Ev) :
    ∀ seen : List Nat, readyOk (pre ++ Ev.readyForFirstSend id :: suf) seen = true →
      Ev.outgoingConnection id ∈ pre ∨ id ∈ seen := by
  induction pre with
  | nil =>
    intro seen h
    right
    simp only [List.nil_append, readyOk, Bool.and_eq_true, decide_eq_true_eq] at h
    exact h.1
  | cons e pre' ih =>
    intro seen h
    rw [List.cons_append] at h
    cases e with
    | outgoingConnection j =>
      rcases ih (j :: seen) (by simpa [readyOk] using h) with hm | hm
      · exact Or.inl (List.mem_cons_of_mem _ hm)
      · rcases List.mem_cons.mp hm with he | hm2
        · exact Or.inl (by rw [he]; exact List.mem_cons_self _ _)
        · exact Or.inr hm2
    | readyForFirstSend j =>
      simp only [readyOk, Bool.and_eq_true] at h
      rcases ih seen h.2 with hm | hm
      · exact Or.inl (List.mem_cons_of_mem _ hm)
      · exact Or.inr hm
    | needOutgoing n =>
      rcases ih seen (by simpa [readyOk] using h) with hm | hm
      · exact Or.inl (List.mem_cons_of_mem _ hm)
      · exact Or.inr hm
    | incomingQuery j =>
      rcases ih seen (by simpa [readyOk] using h) with hm | hm
      · exact Or.inl (List.mem_cons_of_mem _ hm)
      · exact Or.inr hm
    | disconnected j r =>
      rcases ih seen (by simpa [readyOk] using h) with hm | hm
      · exact Or.inl (List.mem_cons_of_mem _ hm)
      · exact Or.inr hm
    | connectionFailure r =>
      rcases ih seen (by simpa [readyOk] using h) with hm | hm
      · exact Or.inl (List.mem_cons_of_mem _ hm)
      · exact Or.inr hm
    | dnsFailure r =>
      rcases ih seen (by simpa [readyOk] using h) with hm | hm
      · exact Or.inl (List.mem_cons_of_mem _ hm)
      · exact Or.inr hm
    | proxyFailure r =>
      rcases ih seen (by simpa [readyOk] using h) with hm | hm
      · exact Or.inl (List.mem_cons_of_mem _ hm)
      · exact Or.inr hm
    | dnsResponse j =>
      rcases ih seen (by simpa [readyOk] using h) with hm | hm
      · exact Or.inl (List.mem_cons_of_mem _ hm)
      · exact Or.inr hm
    | bindFailure =>
      rcases ih seen (by simpa [readyOk] using h) with hm | hm
      · exact Or.inl (List.mem_cons_of_mem _ hm)
      · exact Or.inr hm
    | connectInvoked j =>
      rcases ih seen (by simpa [readyOk] using h) with hm | hm
      · exact Or.inl (List.mem_cons_of_mem _ hm)
      · exact Or.inr hm
    | resolveInvoked j =>
      rcases ih seen (by simpa [readyOk] using h) with hm | hm
      · exact Or.inl (List.mem_cons_of_mem _ hm)
      · exact Or.inr hm

/-! ## Concrete destinations used in the concrete runs -/

/-- A plain direct destination (literal address, no DNS, no proxy). -/
def directDest : CConnection := ⟨false, false, .RESOLVE, 0, true⟩

/-- A DNS destination with `doResolve = RESOLVE_ONLY` and a proxy set:
the input that falls into the `/* TODO */` branch of `StartConnection`. -/
def proxyResolveOnlyDest : CConnection := ⟨true, true, .RESOLVE_ONLY, 0, true⟩

theorem countIf_eq_length (f : ConnInfo → Bool) (m : List (Nat × ConnInfo))
    (h : ∀ p ∈ m, f p.2 = true) : countIf f m = m.length := by
  induction m with
  | nil => rfl
  | cons p rest ih =>
    obtain ⟨k, v⟩ := p
    have hp := h (k, v) (List.mem_cons_self _ _)
    simp only [countIf, List.length_cons, hp, if_true,
      ih (fun q hq => h q (List.mem_cons_of_mem _ hq))]
    omega

/-! ## Claim theorems -/

/-- C3 counterexample: with `retries_remaining = -2` and no shutdown, a
DNS resolution failure is delivered to the embedder with
`will_retry = true`, while the claim's formula
`(retries_remaining > 0 ∨ retries_remaining = -1) ∧ ¬shutdown` is false:
the code tests `m_retries != 0`, not `== -1`. -/
theorem C3_counterexample :
    deliveredRetry (dnsOnResolveFailure ⟨-2, [], 0⟩).1 false = true ∧
    ¬specWillRetry (-2) false := by
  decide

/-- C3 amended: on a DNS resolution failure (empty resolved list, cursor
at end, as the source asserts) the retry flag delivered to the embedder
is true iff `retries_remaining ≠ 0` and the handler is not shutting
down; `retries_remaining` is decremented exactly when it was positive,
so it never drops below zero from a nonnegative value (any negative
value, not just `-1`, means infinite retries). -/
theorem C3_amended (r : Int) (sd : Bool) :
    (deliveredRetry (dnsOnResolveFailure ⟨r, [], 0⟩).1 sd = true ↔ (¬r = 0 ∧ sd = false)) ∧
    ((dnsOnResolveFailure ⟨r, [], 0⟩).2.retries = r - 1 ↔ 0 < r) ∧
    (0 ≤ r → 0 ≤ (dnsOnResolveFailure ⟨r, [], 0⟩).2.retries) := by
  refine ⟨?_, ?_, ?_⟩
  · by_cases h : 0 < r <;> cases sd <;>
      simp [dnsOnResolveFailure, deliveredRetry, h] <;> omega
  · by_cases h : 0 < r <;> simp [dnsOnResolveFailure, h] <;> omega
  · intro hr
    by_cases h : 0 < r <;> simp [dnsOnResolveFailure, h] <;> omega

theorem C3_amended_witness :
    (0 : Int) ≤ 3 ∧ 0 ≤ (dnsOnResolveFailure ⟨3, [], 0⟩).2.retries :=
  ⟨by decide, (C3_amended 3 false).2.2 (by decide)⟩

/-- C7: when a connect attempt to one resolved address fails
(`CDNSConnection::ConnectionFailure`), the cursor advances by one, the
flag passed up is true iff another address remains after the advance or
`m_retries` is nonzero, and neither `m_retries` nor the resolved list is
touched. -/
theorem C7_connect_failure_advances (s : DnsConnState) (h : s.iter < s.resolved.length) :
    ((dnsConnectionFailure s).1 = true ↔
      (s.iter + 1 < s.resolved.length ∨ ¬s.retries = 0)) ∧
    (dnsConnectionFailure s).2.iter = s.iter + 1 ∧
    (dnsConnectionFailure s).2.retries = s.retries ∧
    (dnsConnectionFailure s).2.resolved = s.resolved := by
  refine ⟨?_, rfl, rfl, rfl⟩
  simp [dnsConnectionFailure]

theorem C7_connect_failure_advances_witness :
    (0 : Nat) < ([5, 6] : List Nat).length ∧
    (dnsConnectionFailure ⟨0, [5, 6], 0⟩).2.iter = 0 + 1 :=
  ⟨by decide, (C7_connect_failure_advances ⟨0, [5, 6], 0⟩ (by decide)).2.1⟩

/-- C6 counterexample: `ConnID` is `unsigned int`, so the id allocator
wraps modulo `2^32`: allocation number `2^32` produces the same id as
allocation number `0`, refuting both "64-bit value" and "unique and
strictly increasing for the life of the process". -/
theorem C6_counterexample :
    allocConnId 0 = 0 ∧ allocConnId (2 ^ 32) = 0 ∧ connIdModulus = 2 ^ 32 := by
  refine ⟨rfl, ?_, rfl⟩
  unfold allocConnId connIdModulus
  omega

/-- C6 amended: `ConnID` is a 32-bit `unsigned int`; ids taken from the
post-incremented counter (including the fresh id of every retry) are
below `2^32` and strictly increasing as long as fewer than `2^32`
allocations have been performed. -/
theorem C6_amended (i j : Nat) (hij : i < j) (hj : j < connIdModulus) :
    allocConnId i < allocConnId j ∧ allocConnId j < connIdModulus := by
  unfold connIdModulus at hj
  unfold allocConnId connIdModulus
  constructor <;> omega

theorem C6_amended_witness :
    (0 : Nat) < 1 ∧ 1 < connIdModulus ∧ allocConnId 0 < allocConnId 1 :=
  ⟨by decide, by decide, (C6_amended 0 1 (by decide) (by decide)).1⟩

/-- C9: when the embedder declines an incoming connection
(`OnIncomingConnection` callback returns false), the connection is only
removed from `m_connecting` and destroyed: it is not added to
`m_connected`, `m_incoming_conn_count` is not incremented, and every
other piece of handler state is unchanged. -/
theorem C9_declined_incoming (s : HandlerState) (id : Nat) (info : ConnInfo)
    (hl : lookupId s.connecting id = some info) (hv : info.variant = Variant.Incoming) :
    (OnIncomingConnected id false s).1 = { s with connecting := eraseId s.connecting id } ∧
    (OnIncomingConnected id false s).1.connected = s.connected ∧
    (OnIncomingConnected id false s).1.incomingConnCount = s.incomingConnCount ∧
    (OnIncomingConnected id false s).1.outgoingConnCount = s.outgoingConnCount ∧
    (OnIncomingConnected id false s).1.dnsResolves = s.dnsResolves ∧
    (OnIncomingConnected id false s).1.binds = s.binds ∧
    (OnIncomingConnected id false s).1.connectionIndex = s.connectionIndex := by
  unfold OnIncomingConnected
  rw [hl]
  simp [hv]

theorem C9_declined_incoming_witness :
    (OnIncomingConnected 0 false
        (run [Op.incomingAccepted directDest] (initState 8)).1).1.connected =
      (run [Op.incomingAccepted directDest] (initState 8)).1.connected :=
  (C9_declined_incoming (run [Op.incomingAccepted directDest] (initState 8)).1 0
    (mkConnInfo directDest .Incoming) (by decide) (by decide)).2.1

/-- C10: for an id absent from `m_connected`, `Send` returns false and
leaves the state unchanged, and `CloseConnection`, `PauseRecv`,
`UnpauseRecv` and `SetRateLimit` are exact no-ops (no assertion fires:
each of them only does a guarded `find`). -/
theorem C10_unknown_id_noop (s : HandlerState) (id n : Nat) (imm : Bool) (lim : CRateLimit)
    (h : lookupId s.connected id = none) :
    (Send id n s).2 = false ∧ (Send id n s).1 = s ∧
    CloseConnection id imm s = s ∧ PauseRecv id s = s ∧
    UnpauseRecv id s = s ∧ SetRateLimit id lim s = s := by
  unfold Send CloseConnection PauseRecv UnpauseRecv SetRateLimit
  rw [h]
  exact ⟨rfl, rfl, rfl, rfl, rfl, rfl⟩

theorem C10_unknown_id_noop_witness :
    lookupId (initState 8).connected 7 = none ∧ (Send 7 3 (initState 8)).2 = false :=
  ⟨by decide, (C10_unknown_id_noop (initState 8) 7 3 true ⟨1, 1, 1, 1⟩ (by decide)).1⟩

/-- C8: (a) in every trace of handler operations, a
`readyForFirstSend id` callback is always preceded by an
`outgoingConnection id` callback — no `OnReadyForFirstSend` is ever
delivered for an id whose `OnOutgoingConnection` has not been delivered;
(b) when an outgoing connection establishes, `OnOutgoingConnected`
delivers exactly `OnOutgoingConnection(id)` followed by
`OnReadyForFirstSend(id)` (part_003 lines 327-328, and nothing else
emits either callback). -/
theorem C8_ready_after_connection :
    (∀ (s : HandlerState) (ops : List Op) (pre suf : List Ev) (id : Nat),
      (run ops s).2 = pre ++ Ev.readyForFirstSend id :: suf →
        Ev.outgoingConnection id ∈ pre) ∧
    (∀ (s : HandlerState) (id : Nat) (info : ConnInfo),
      lookupId s.connecting id = some info → info.variant.isOutgoing = true →
        (OnOutgoingConnected id s).2 =
          [Ev.outgoingConnection id, Ev.readyForFirstSend id]) := by
  constructor
  · intro s ops pre suf id h
    have hok : readyOk (run ops s).2 [] = true := readyOk_run ops s []
    rw [h] at hok
    rcases readyOk_precedes suf id pre [] hok with hm | hm
    · exact hm
    · exact absurd hm (List.not_mem_nil id)
  · intro s id info hl ho
    unfold OnOutgoingConnected
    rw [hl]
    simp [ho]

theorem C8_ready_after_connection_witness :
    Ev.outgoingConnection 0 ∈ [Ev.connectInvoked 0, Ev.outgoingConnection 0] :=
  C8_ready_after_connection.1 (initState 8) [Op.startConn directDest, Op.outgoingConnected 0]
    [Ev.connectInvoked 0, Ev.outgoingConnection 0] [] 0 (by decide)

/-- C2 counterexample: for a Destination with a proxy set AND
`IsDNS() && doResolve == RESOLVE_ONLY`, the claim says the Proxy variant
is chosen and the connection inserted with `connect()` invoked; the code
hits the `/* TODO */` branch of `StartConnection`, inserts nothing into
any map and invokes nothing. -/
theorem C2_counterexample :
    (StartConnection proxyResolveOnlyDest (initState 8)).1.connecting = [] ∧
    (StartConnection proxyResolveOnlyDest (initState 8)).1.dnsResolves = [] ∧
    (StartConnection proxyResolveOnlyDest (initState 8)).2 = [] := by
  decide

/-- C2 amended: `StartConnection` tests `IsDNS() && RESOLVE_ONLY`
before the proxy.  A proxied RESOLVE_ONLY DNS destination falls into an
unimplemented branch that consumes an id but inserts and invokes
nothing; an unproxied RESOLVE_ONLY DNS destination becomes a ResolveOnly
entry in `dns_resolves` with `Resolve()` invoked; every other
destination becomes Proxy (if proxy set), else DNS (if the host needs
resolution), else Direct, inserted into `connecting` with `Connect()`
invoked. -/
theorem C2_amended (c : CConnection) (s : HandlerState)
    (hfresh1 : lookupId s.connecting (allocConnId s.connectionIndex) = none)
    (hfresh2 : lookupId s.dnsResolves (allocConnId s.connectionIndex) = none) :
    (c.isDNS = true → c.doResolve = DoResolveOpt.RESOLVE_ONLY → c.proxySet = true →
      StartConnection c s = ({ s with connectionIndex := s.connectionIndex + 1 }, [])) ∧
    (c.isDNS = true → c.doResolve = DoResolveOpt.RESOLVE_ONLY → c.proxySet = false →
      StartConnection c s =
        ({ s with connectionIndex := s.connectionIndex + 1,
                  dnsResolves := s.dnsResolves ++
                    [(allocConnId s.connectionIndex, mkConnInfo c .ResolveOnly)] },
         [.resolveInvoked (allocConnId s.connectionIndex)])) ∧
    (¬(c.isDNS = true ∧ c.doResolve = DoResolveOpt.RESOLVE_ONLY) →
      StartConnection c s =
        ({ s with connectionIndex := s.connectionIndex + 1,
                  connecting := s.connecting ++
                    [(allocConnId s.connectionIndex,
                      mkConnInfo c
                        (if c.proxySet then .Proxy else if c.isDNS then .DNS else .Direct))] },
         [.connectInvoked (allocConnId s.connectionIndex)])) := by
  refine ⟨?_, ?_, ?_⟩
  · intro h1 h2 h3
    unfold StartConnection
    rw [if_pos (show c.isDNS ∧ c.doResolve = DoResolveOpt.RESOLVE_ONLY from ⟨h1, h2⟩),
      if_pos h3]
  · intro h1 h2 h3
    unfold StartConnection
    rw [if_pos (show c.isDNS ∧ c.doResolve = DoResolveOpt.RESOLVE_ONLY from ⟨h1, h2⟩),
      if_neg (show ¬(c.proxySet = true) by simp [h3])]
    show ({ s with connectionIndex := s.connectionIndex + 1
                   dnsResolves := emplaceHint s.dnsResolves (allocConnId s.connectionIndex)
                     (mkConnInfo c .ResolveOnly) },
          [Ev.resolveInvoked (allocConnId s.connectionIndex)]) = _
    rw [emplaceHint_of_none hfresh2]
  · intro h
    unfold StartConnection
    rw [if_neg (show ¬(c.isDNS ∧ c.doResolve = DoResolveOpt.RESOLVE_ONLY) from h)]
    show ({ s with connectionIndex := s.connectionIndex + 1
                   connecting := emplaceHint s.connecting (allocConnId s.connectionIndex)
                     (mkConnInfo c (variantFor c)) },
          [Ev.connectInvoked (allocConnId s.connectionIndex)]) = _
    rw [emplaceHint_of_none hfresh1]
    rfl

theorem C2_amended_witness :
    (StartConnection directDest (initState 8)).1.connecting =
      [(0, mkConnInfo directDest Variant.Direct)] := by
  have h := (C2_amended directDest (initState 8) (by decide) (by decide)).2.2 (by decide)
  rw [h]
  rfl

/-- C4 counterexample: `OnOutgoingConnected` inserts the connection into
`m_connected` (line 325) but only increments `m_outgoing_conn_count`
after the `OnOutgoingConnection` / `OnReadyForFirstSend` callbacks
(line 329).  In the reachable state in which those callbacks run
(modelled by `OnOutgoingConnectedPre`), the connected map holds one
outgoing entry while the count is still 0 — and the embedder can
observe this state: `Send` on the new id already succeeds there. -/
theorem C4_counterexample :
    (OnOutgoingConnectedPre 0 (run [Op.startConn directDest] (initState 8)).1).outgoingConnCount
      = 0 ∧
    countOutgoing
      (OnOutgoingConnectedPre 0 (run [Op.startConn directDest] (initState 8)).1).connected
      = 1 ∧
    (Send 0 4 (OnOutgoingConnectedPre 0 (run [Op.startConn directDest] (initState 8)).1)).2
      = true := by
  decide

/-- C4 amended: at every operation boundary (after each handler event or
command completes, for any operation sequence from a fresh handler that
performs fewer than `2^32` id allocations), `outgoing_conn_count` equals
the number of outgoing entries of `connected` and `incoming_conn_count`
the number of incoming entries; the only embedder-visible exception is
inside the `on_outgoing_connection` / `on_ready_for_first_send`
callbacks of a just-established outgoing connection, where the outgoing
count is one less than the connected map's outgoing entries. -/
theorem C4_amended (L : Int) (ops : List Op)
    (hidx : (run ops (initState L)).1.connectionIndex ≤ connIdModulus) :
    (run ops (initState L)).1.outgoingConnCount =
      (countOutgoing (run ops (initState L)).1.connected : Int) ∧
    (run ops (initState L)).1.incomingConnCount =
      (countIncoming (run ops (initState L)).1.connected : Int) := by
  have h := good_run ops (initState L) (good_initState L) hidx
  exact ⟨h.1, h.2.1⟩

theorem C4_amended_witness :
    (run [Op.startConn directDest, Op.outgoingConnected 0] (initState 8)).1.connectionIndex
      ≤ connIdModulus ∧
    (run [Op.startConn directDest, Op.outgoingConnected 0] (initState 8)).1.outgoingConnCount =
      (countOutgoing
        (run [Op.startConn directDest, Op.outgoingConnected 0] (initState 8)).1.connected : Int) :=
  ⟨by decide, (C4_amended 8 [Op.startConn directDest, Op.outgoingConnected 0] (by decide)).1⟩

/-- C5: running the shutdown sequence (`ShutdownInt`, when it has not
already run) from any state reachable by a sequence of operations from a
fresh handler (with fewer than `2^32` id allocations) leaves all four
maps — `connected`, `connecting`, `dns_resolves`, `binds` — empty and
both counts at zero, before `PumpEvents` later delivers `OnShutdown`. -/
theorem C5_shutdown_clears (L : Int) (ops : List Op)
    (hidx : (run ops (initState L)).1.connectionIndex ≤ connIdModulus)
    (hsd : (run ops (initState L)).1.shutdown = false) :
    (ShutdownInt (run ops (initState L)).1).1.connected = [] ∧
    (ShutdownInt (run ops (initState L)).1).1.connecting = [] ∧
    (ShutdownInt (run ops (initState L)).1).1.dnsResolves = [] ∧
    (ShutdownInt (run ops (initState L)).1).1.binds = [] ∧
    (ShutdownInt (run ops (initState L)).1).1.outgoingConnCount = 0 ∧
    (ShutdownInt (run ops (initState L)).1).1.incomingConnCount = 0 := by
  have hg := good_run ops (initState L) (good_initState L) hidx
  unfold ShutdownInt
  rw [hsd]
  simp only [Bool.false_eq_true, if_false]
  refine ⟨trivial, trivial, trivial, trivial, ?_, ?_⟩
  · show (run ops (initState L)).1.outgoingConnCount -
      (countOutgoing (run ops (initState L)).1.connected : Int) = 0
    have h1 := hg.1
    omega
  · show (run ops (initState L)).1.incomingConnCount -
      (countIncoming (run ops (initState L)).1.connected : Int) = 0
    have h2 := hg.2.1
    omega

theorem C5_shutdown_clears_witness :
    (run ([] : List Op) (initState 0)).1.shutdown = false ∧
    (ShutdownInt (run ([] : List Op) (initState 0)).1).1.connected = [] :=
  ⟨by decide, (C5_shutdown_clears 0 [] (by decide) (by decide)).1⟩

/-- C1 counterexample: with `outgoing_conn_limit = 1` and two outgoing
connections already started via `StartConnection` (a public handler
operation), the spec quantity `min(8, limit − count − |outgoing ∈
connecting|) = min(8, 1 − 0 − 2) = −1` is not positive, so the claim
says no connections are requested; but the code casts the negative `int`
to `size_t`, obtaining `2^64 − 1 > 0`, and asks the embedder for
`2^64 − 1` outgoing connections. -/
theorem C1_counterexample :
    specNeed ((run [Op.startConn directDest, Op.startConn directDest] (initState 1)).1) = -1 ∧
    (RequestOutgoingInt (fun _ => [])
        ((run [Op.startConn directDest, Op.startConn directDest] (initState 1)).1)).2 =
      [Ev.needOutgoing (2 ^ 64 - 1)] := by
  decide

/-- C1 amended: on a refill cycle in a state whose `connecting` map
holds only outgoing connections (so that the code's
`m_connecting.size()` agrees with the spec's `|outgoing ∈ connecting|`),
let `q = min(8, outgoing_conn_limit − outgoing_conn_count −
|connecting|)` computed in `int` (no overflow assumed).  If `q > 0`
the embedder is asked for exactly `q` connections; if `q = 0` nothing
happens; but if `q < 0` the signed-to-`size_t` cast wraps and the
embedder is asked for `q + 2^64` connections instead of none. -/
theorem C1_amended (s : HandlerState) (response : Nat → List CConnection)
    (hall : ∀ p ∈ s.connecting, p.2.variant.isOutgoing = true)
    (hlo : -(2 ^ 31 : Int) < specNeed s) (hhi : specNeed s < 2 ^ 31) :
    (0 < specNeed s →
      ∃ rest : List Ev, (RequestOutgoingInt response s).2 =
        Ev.needOutgoing (specNeed s).toNat :: rest) ∧
    (specNeed s = 0 → RequestOutgoingInt response s = (s, [])) ∧
    (specNeed s < 0 →
      ∃ rest : List Ev, (RequestOutgoingInt response s).2 =
        Ev.needOutgoing (specNeed s + 2 ^ 64).toNat :: rest) := by
  have hcnt : countOutgoing s.connecting = s.connecting.length :=
    countIf_eq_length _ _ hall
  have hq : min 8 (codeNeedQty s) = specNeed s := by
    unfold specNeed codeNeedQty
    rw [hcnt]
  refine ⟨?_, ?_, ?_⟩
  · intro hpos
    have hmod : (min 8 (codeNeedQty s)) % (2 ^ 64 : Int) = specNeed s := by
      rw [hq]
      omega
    have hneed : needValue s = (specNeed s).toNat := by
      unfold needValue
      rw [hmod]
    have hposn : 0 < needValue s := by
      rw [hneed]
      omega
    refine ⟨(startMany (takenConns response s) s).2, ?_⟩
    unfold RequestOutgoingInt
    rw [if_pos hposn, hneed]
  · intro hzero
    have hmod : (min 8 (codeNeedQty s)) % (2 ^ 64 : Int) = 0 := by
      rw [hq, hzero]
      rfl
    have hneed : needValue s = 0 := by
      unfold needValue
      rw [hmod]
      rfl
    unfold RequestOutgoingInt
    rw [if_neg (by omega : ¬0 < needValue s)]
  · intro hneg
    have hmod : (min 8 (codeNeedQty s)) % (2 ^ 64 : Int) = specNeed s + 2 ^ 64 := by
      rw [hq]
      omega
    have hneed : needValue s = (specNeed s + 2 ^ 64).toNat := by
      unfold needValue
      rw [hmod]
    have hposn : 0 < needValue s := by
      rw [hneed]
      omega
    refine ⟨(startMany (takenConns response s) s).2, ?_⟩
    unfold RequestOutgoingInt
    rw [if_pos hposn, hneed]

theorem C1_amended_witness :
    (∀ p ∈ (initState 8).connecting, p.2.variant.isOutgoing = true) ∧
    (0 : Int) < specNeed (initState 8) ∧
    ∃ rest : List Ev, (RequestOutgoingInt (fun _ => []) (initState 8)).2 =
      Ev.needOutgoing (specNeed (initState 8)).toNat :: rest :=
  ⟨by decide, by decide,
    (C1_amended (initState 8) (fun _ => []) (by decide) (by decide) (by decide)).1 (by decide)⟩
